import Mathlib

/-!
Shallow embedding of the `deyecloud2` Home Assistant custom integration
(files `custom_components/deyecloud2/__init__.py` and
`custom_components/deyecloud2/config_flow.py`), together with proofs about
the embedded functions.

Modelling conventions:
* Python strings are Lean `String`s (lists of characters); `str.strip`,
  `str.lower`, `str.split` and friends are embedded over `List Char`.
  Character classes (`strip` whitespace, `lower`) are modelled on the ASCII
  range, which is the range exercised by this integration.
* Python numbers: `int` is `Int`; `float` is modelled as an exact rational
  (`ℚ`).  The decimal/scientific literals handled by the integration are
  exact in this model; IEEE-754 rounding, overflow to `inf`, and the
  floating `nan`/`inf` special values are outside the model.
* JSON / Python runtime values are the sum type `PyVal`
  (`None` | `bool` | `int` | `float` | `str`).
* Effects: time (`datetime.now()`) and the network are passed in as explicit
  arguments; every function that performs I/O returns, besides its Python
  return value, the resulting mutable state and a count of network calls.
* Exceptions are `Except` values.
-/

namespace DeyeCloud

/-- Python runtime value as it appears in parsed JSON / coerced readings. -/
inductive PyVal where
  | none
  | bool (b : Bool)
  | int (n : Int)
  | float (q : ℚ)
  | str (s : String)
deriving DecidableEq, Repr

/-- ASCII whitespace stripped by Python `str.strip()`:
space, tab, newline, carriage return, vertical tab, form feed. -/
def pyIsSpace (c : Char) : Bool :=
  c = ' ' || c = '\t' || c = '\n' || c = '\r' || c = '\x0b' || c = '\x0c'

/-- Python `str.strip()` on a character list: drop whitespace at both ends. -/
def pyStripList (s : List Char) : List Char :=
  ((s.dropWhile pyIsSpace).reverse.dropWhile pyIsSpace).reverse

/-- Python `str.strip()`. -/
def pyStrip (s : String) : String :=
  (pyStripList s.toList).asString

/-- Python `str.lower()` (ASCII model). -/
def pyLower (s : String) : String :=
  (s.toList.map Char.toLower).asString

/-- Characters replaced by `_` in `normalize_key`:
the loop `for ch in [" ", "/", "-", "(", ")"]`. -/
def isReplacedChar (c : Char) : Bool :=
  c = ' ' || c = '/' || c = '-' || c = '(' || c = ')'

/-- The five sequential `key.replace(ch, "_")` calls of `normalize_key`.
Each target is a single character and the replacement `_` is not itself a
target, so the sequential replaces act as one character map. -/
def replaceSpecials (s : List Char) : List Char :=
  s.map (fun c => if isReplacedChar c then '_' else c)

/-- One Python `key.replace("__", "_")` pass: left-to-right, non-overlapping. -/
def replacePairOnce : List Char → List Char
  | [] => []
  | [c] => [c]
  | c1 :: c2 :: rest =>
    if c1 = '_' ∧ c2 = '_' then '_' :: replacePairOnce rest
    else c1 :: replacePairOnce (c2 :: rest)

/-- Python `"__" in key`. -/
def hasDouble : List Char → Bool
  | [] => false
  | [_] => false
  | c1 :: c2 :: rest => (c1 = '_' && c2 = '_') || hasDouble (c2 :: rest)

/-- Lemma used for termination: a replace pass never lengthens the string. -/
theorem replacePairOnce_length_le (s : List Char) :
    (replacePairOnce s).length ≤ s.length := by
  induction s using replacePairOnce.induct with
  | case1 => simp [replacePairOnce]
  | case2 c => simp [replacePairOnce]
  | case3 c1 c2 rest h ih =>
    simp only [replacePairOnce, if_pos h, List.length_cons]
    omega
  | case4 c1 c2 rest h ih =>
    simp only [replacePairOnce, if_neg h, List.length_cons]
    simpa using ih

/-- Lemma used for termination: when a double underscore is present, a
replace pass strictly shortens the string. -/
theorem replacePairOnce_length_lt (s : List Char) (h : hasDouble s = true) :
    (replacePairOnce s).length < s.length := by
  induction s using replacePairOnce.induct with
  | case1 => simp [hasDouble] at h
  | case2 c => simp [hasDouble] at h
  | case3 c1 c2 rest hp ih =>
    simp only [replacePairOnce, if_pos hp, List.length_cons]
    have := replacePairOnce_length_le rest
    omega
  | case4 c1 c2 rest hp ih =>
    simp only [hasDouble, Bool.or_eq_true, Bool.and_eq_true, decide_eq_true_eq] at h
    rcases h with h | h
    · exact absurd h hp
    · simp only [replacePairOnce, if_neg hp, List.length_cons]
      have := ih h
      simp only [List.length_cons] at this
      omega

/-- Fuel-indexed unfolding of the loop
`while "__" in key: key = key.replace("__", "_")`.  The fuel only serves
Lean's structural recursion; since every iteration strictly shortens the
string (`replacePairOnce_length_lt`), a fuel of the string's length always
reaches the loop's exit condition (`hasDouble_collapseFuel`). -/
def collapseFuel : Nat → List Char → List Char
  | 0, s => s
  | fuel + 1, s =>
    if hasDouble s then collapseFuel fuel (replacePairOnce s) else s

/-- The loop `while "__" in key: key = key.replace("__", "_")`. -/
def collapseUnderscores (s : List Char) : List Char :=
  collapseFuel s.length s

/-- The function `normalize_key` of `__init__.py` (lines 311-317):
strip, lower, replace each of space `/` `-` `(` `)` by `_`, then collapse
runs of `_`. -/
def normalize_key (name : String) : String :=
  (collapseUnderscores
    (replaceSpecials ((pyStripList name.toList).map Char.toLower))).asString

/-- One decimal digit value. -/
def digitVal (c : Char) : Nat := c.toNat - 48

/-- Whether a character list is a non-empty run of ASCII digits. -/
def allDigits (cs : List Char) : Bool :=
  !cs.isEmpty && cs.all Char.isDigit

/-- Natural number denoted by a digit run. -/
def digitsToNat (cs : List Char) : Nat :=
  cs.foldl (fun acc c => acc * 10 + digitVal c) 0

/-- Python `int(s)` on the strings this integration can meet: optional
sign followed by a non-empty ASCII digit run, surrounding whitespace
ignored (Python also accepts `_` digit separators and non-ASCII digits,
which this model omits). `none` models `ValueError`. -/
def parsePyInt (s : String) : Option Int :=
  match pyStripList s.toList with
  | '+' :: ds => if allDigits ds then some (digitsToNat ds : Int) else Option.none
  | '-' :: ds => if allDigits ds then some (-(digitsToNat ds : Int)) else Option.none
  | ds => if allDigits ds then some (digitsToNat ds : Int) else Option.none

/-- Split a character list at the first occurrence of a separator
satisfying `p`; `none` if absent. -/
def splitAtFirst (p : Char → Bool) : List Char → Option (List Char × List Char)
  | [] => Option.none
  | c :: rest =>
    if p c then some ([], rest)
    else (splitAtFirst p rest).map (fun pr => (c :: pr.1, pr.2))

/-- Mantissa `digits [. digits]` with at least one digit overall,
as an exact rational. -/
def parseMantissa (cs : List Char) : Option ℚ :=
  match splitAtFirst (fun c => c = '.') cs with
  | Option.none =>
    if allDigits cs then some (digitsToNat cs : ℚ) else Option.none
  | some (intPart, fracPart) =>
    if (intPart.all Char.isDigit && fracPart.all Char.isDigit) &&
        (!intPart.isEmpty || !fracPart.isEmpty) then
      some ((digitsToNat intPart : ℚ) +
        (digitsToNat fracPart : ℚ) / (10 : ℚ) ^ fracPart.length)
    else Option.none

/-- Exponent part `[+|-] digits`. -/
def parseExponent (cs : List Char) : Option Int :=
  match cs with
  | '+' :: ds => if allDigits ds then some (digitsToNat ds : Int) else Option.none
  | '-' :: ds => if allDigits ds then some (-(digitsToNat ds : Int)) else Option.none
  | ds => if allDigits ds then some (digitsToNat ds : Int) else Option.none

/-- Unsigned float literal `mantissa [(e|E) exponent]`. -/
def parseFloatMag (cs : List Char) : Option ℚ :=
  match splitAtFirst (fun c => c = 'e' || c = 'E') cs with
  | Option.none => parseMantissa cs
  | some (mant, expPart) =>
    match parseMantissa mant, parseExponent expPart with
    | some m, some e => some (m * (10 : ℚ) ^ e)
    | _, _ => Option.none

/-- Python `float(s)` on finite decimal/scientific literals, as an exact
rational: optional sign, mantissa, optional exponent, surrounding
whitespace ignored.  The special literals `inf`/`infinity`/`nan` have no
rational value and are not representable here; in the embedded call sites
the float branch is only reached for strings containing `.` or `e`/`E`,
which those literals do not.  `none` models `ValueError`. -/
def parsePyFloat (s : String) : Option ℚ :=
  match pyStripList s.toList with
  | '+' :: cs => parseFloatMag cs
  | '-' :: cs => (parseFloatMag cs).map Neg.neg
  | cs => parseFloatMag cs

/-- Value coercion of `parse_deyecloud_text` (`__init__.py` lines 333-343):
sentinels `nan`/`inf`/`-inf` (note: not `null`) become `None`; text with
`.` or `e`/`E` parses as float, otherwise as int; any parse failure keeps
the original string. -/
def coerceTextValue (value_str : String) : PyVal :=
  if pyLower value_str ∈ ["nan", "inf", "-inf"] then PyVal.none
  else if value_str.toList.contains '.' || (pyLower value_str).toList.contains 'e' then
    match parsePyFloat value_str with
    | some q => PyVal.float q
    | Option.none => PyVal.str value_str
  else
    match parsePyInt value_str with
    | some n => PyVal.int n
    | Option.none => PyVal.str value_str

/-- Python `line.split("\t")`. -/
def splitTab : List Char → List (List Char)
  | [] => [[]]
  | '\t' :: rest => [] :: splitTab rest
  | c :: rest =>
    match splitTab rest with
    | [] => [[c]]
    | p :: ps => (c :: p) :: ps

/-- Accumulating worker of `pySplitlines`. -/
def splitlinesGo (acc : List Char) : List Char → List (List Char)
  | [] => if acc.isEmpty then [] else [acc.reverse]
  | '\r' :: '\n' :: rest => acc.reverse :: splitlinesGo [] rest
  | '\n' :: rest => acc.reverse :: splitlinesGo [] rest
  | '\r' :: rest => acc.reverse :: splitlinesGo [] rest
  | c :: rest => splitlinesGo (c :: acc) rest

/-- Python `str.splitlines()` on the common terminators `\n`, `\r\n` and
`\r`: a trailing line terminator does not produce a final empty line.
(Python additionally breaks on rarer terminators such as `\v`, `\f` and
U+2028, outside this ASCII model.) -/
def pySplitlines (s : List Char) : List (List Char) :=
  splitlinesGo [] s

/-- One reading of a snapshot: the dict
`{"name": ..., "value": ..., "unit": ...}`. -/
structure Reading where
  name : String
  value : PyVal
  unit : Option String
deriving DecidableEq, Repr

/-- A snapshot: insertion-ordered string-keyed dict of readings. -/
abbrev Snapshot := List (String × Reading)

/-- Python `data[key] = value` on an insertion-ordered dict: overwrite in
place when the key is present, append otherwise. -/
def dictInsert (d : Snapshot) (k : String) (v : Reading) : Snapshot :=
  if d.any (fun p => p.1 = k) then
    d.map (fun p => if p.1 = k then (k, v) else p)
  else d ++ [(k, v)]

/-- Python `data.get(key)` / key lookup on the ordered dict. -/
def lookupKey (d : Snapshot) (k : String) : Option Reading :=
  match d with
  | [] => Option.none
  | p :: rest => if p.1 = k then some p.2 else lookupKey rest k

/-- Loop body of `parse_deyecloud_text` (lines 322-346) for one raw line. -/
def parseTextLine (data : Snapshot) (rawLine : List Char) : Snapshot :=
  let line := pyStripList rawLine
  if line.isEmpty then data
  else
    let parts := (splitTab line).filter (fun p => p ≠ [])
    if parts.length < 2 then data
    else
      let name := pyStrip (parts.getD 0 []).asString
      let value_str := pyStrip (parts.getD 1 []).asString
      let unit :=
        if parts.length ≥ 3 then some (pyStrip (parts.getD 2 []).asString)
        else Option.none
      let value := coerceTextValue value_str
      let key := normalize_key name
      dictInsert data key ⟨name, value, unit⟩

/-- The function `parse_deyecloud_text` of `__init__.py` (lines 320-348). -/
def parse_deyecloud_text (raw_text : String) : Snapshot :=
  (pySplitlines raw_text.toList).foldl parseTextLine ([] : Snapshot)

/-- Value conversion of `_convert_deye_response` (`__init__.py` lines
274-286).  The Python chain is
`value is None or str(value).lower() in {"nan","inf","-inf","null"}` →
`None`, `isinstance(value, (int, float))` → pass through, text with `.` or
`e`/`E` → `float(value)`, otherwise `int(value)`, with
`ValueError`/`TypeError` falling back to `str(value)`.
Non-string cases: `str()` of a bool, an int or a finite float is never one
of the four sentinels, so bools (a subclass of `int` in Python), ints and
floats pass the `isinstance` branch unchanged. -/
def convertValue : PyVal → PyVal
  | PyVal.none => PyVal.none
  | PyVal.bool b => PyVal.bool b
  | PyVal.int n => PyVal.int n
  | PyVal.float q => PyVal.float q
  | PyVal.str s =>
    if pyLower s ∈ ["nan", "inf", "-inf", "null"] then PyVal.none
    else if s.toList.contains '.' || (pyLower s).toList.contains 'e' then
      match parsePyFloat s with
      | some q => PyVal.float q
      | Option.none => PyVal.str s
    else
      match parsePyInt s with
      | some n => PyVal.int n
      | Option.none => PyVal.str s

/-- One element of the cloud response's `dataList`.  `key` and `unit` are
`none` when the JSON field is absent (`item.get("key", "")` /
`item.get("unit", "")` then supply `""`); `value` is `PyVal.none` when the
`value` field is absent or null (`item.get("value")` supplies `None`). -/
structure DataItem where
  key : Option String
  value : PyVal
  unit : Option String
deriving DecidableEq, Repr

/-- One element of `deviceDataList`; `dataList` is `none` when absent. -/
structure DeviceData where
  dataList : Option (List DataItem)
deriving DecidableEq, Repr

/-- The decoded JSON body of the `device/latest` response;
`deviceDataList` is `none` when absent. -/
structure ApiData where
  deviceDataList : Option (List DeviceData)
deriving DecidableEq, Repr

/-- Loop body of `_convert_deye_response` (lines 263-292) for one item. -/
def convertItem (data : Snapshot) (item : DataItem) : Snapshot :=
  let key_name := item.key.getD ""
  let unit := item.unit.getD ""
  if key_name = "" then data
  else
    let normalized_key := normalize_key key_name
    let converted_value := convertValue item.value
    dictInsert data normalized_key ⟨key_name, converted_value, some unit⟩

/-- Truthiness of `api_data.get("deviceDataList")` and
`device_data.get("dataList")`: an absent field and an empty list are both
falsy. -/
def firstDeviceItems (apiData : ApiData) : Option (List DataItem) :=
  match apiData.deviceDataList with
  | Option.none => Option.none
  | some [] => Option.none
  | some (deviceData :: _) =>
    match deviceData.dataList with
    | Option.none => Option.none
    | some [] => Option.none
    | some items => some items

/-- The method `_convert_deye_response` (`__init__.py` lines 246-308).
`nowIso` stands for the `datetime.now().isoformat()` string taken when the
synthetic `last_update` reading is built. -/
def convertDeyeResponse (apiData : ApiData) (nowIso : String) : Snapshot :=
  match firstDeviceItems apiData with
  | Option.none => []
  | some items =>
    let data := items.foldl convertItem ([] : Snapshot)
    let data := dictInsert data "device_online"
      ⟨"Device Online", PyVal.bool true, Option.none⟩
    dictInsert data "last_update"
      ⟨"Last Update", PyVal.str nowIso, Option.none⟩

/-- Terminal error raised by the retry wrappers: `UpdateFailed` built from
the last recorded exception (`None` when no attempt ran, possible only for
a zero attempt budget).  `_update_from_api_with_retry` passes the exception
itself, `_update_from_deye_with_retry` renders it into its message; both
chain it with `from last_exception`. -/
inductive RetryFailure (E : Type) where
  | updateFailed (lastException : Option E)
deriving DecidableEq, Repr

/-- Trace of one retry-wrapper run: the Python return/raise outcome, the
number of `asyncio.sleep(self._retry_delay)` calls, and the number of
invocations of the wrapped operation. -/
structure RetryTrace (E A : Type) where
  result : Except (RetryFailure E) A
  sleeps : Nat
  calls : Nat
deriving Repr

/-- Retry loop of `_update_from_api_with_retry` (lines 109-118) and
`_update_from_deye_with_retry` (lines 134-152) — the two wrappers share
this control flow; they differ only in log output and in how the terminal
`UpdateFailed` renders the last exception.  `op i` is the outcome of the
`i`-th invocation of the wrapped operation (the network is an oracle
indexed by attempt number). -/
def retryFrom (op : Nat → Except E A) (maxRetries attempt : Nat)
    (lastException : Option E) : RetryTrace E A :=
  if _h : attempt < maxRetries then
    match op attempt with
    | Except.ok a => { result := Except.ok a, sleeps := 0, calls := 1 }
    | Except.error e =>
      let rest := retryFrom op maxRetries (attempt + 1) (some e)
      if attempt < maxRetries - 1 then
        { result := rest.result, sleeps := rest.sleeps + 1, calls := rest.calls + 1 }
      else
        { result := rest.result, sleeps := rest.sleeps, calls := rest.calls + 1 }
  else
    { result := Except.error (RetryFailure.updateFailed lastException),
      sleeps := 0, calls := 0 }
termination_by maxRetries - attempt

/-- The coordinator's retry configuration (lines 101-102):
`self._max_retries = 3`, `self._retry_delay = 5`. -/
def maxRetriesConst : Nat := 3

/-- Fixed delay, in seconds, of one retry sleep. -/
def retryDelayConst : Nat := 5

/-- A full `*_with_retry` run with the coordinator's attempt budget. -/
def updateWithRetry (op : Nat → Except E A) : RetryTrace E A :=
  retryFrom op maxRetriesConst 0 Option.none

/-- The coordinator's token cache (lines 96-98): `self._access_token` and
`self._token_expires_at`.  Timestamps are seconds as `Nat`. -/
structure TokenCache where
  accessToken : Option String
  tokenExpiresAt : Option Nat
deriving DecidableEq, Repr

/-- The cache state set in `DeyeCloudCoordinator.__init__`. -/
def initTokenCache : TokenCache :=
  { accessToken := Option.none, tokenExpiresAt := Option.none }

/-- Network behavior of one potential `account/token` POST:
either an `aiohttp.ClientError`, or a response with its HTTP status, its
body text, and its decoded JSON fields `success` (absent and `false` are
both falsy) and `msg` (`none` when absent).  The `accessToken` field
distinguishes key presence from value: the outer `Option` is the
`"accessToken" in result` membership that line 205 tests, the inner one is
the field's value, `none` for JSON null — a present-but-null token passes
the membership check and is then cached and returned as Python `None`. -/
inductive TokenNet where
  | transportErr (msg : String)
  | resp (status : Nat) (bodyText : String) (success : Bool)
      (msg : Option String) (accessToken : Option (Option String))
deriving DecidableEq, Repr

/-- Errors raised by `_get_deye_token`, with the payloads the Python
f-strings interpolate. -/
inductive TokenError where
  | authHttp (status : Nat) (body : String)
  | authFailed (msg : String)
  | noAccessToken
  | network (msg : String)
deriving DecidableEq, Repr

/-- Result of one `_get_deye_token` call: Python return/raise outcome, the
cache state after the call, and the number of network calls made.  The
return payload is `Option String` because, despite the `-> str`
annotation, the function returns `self._access_token`, which is `None`
when the server sent a present-but-null `accessToken`. -/
structure TokenCallResult where
  result : Except TokenError (Option String)
  cache : TokenCache
  networkCalls : Nat
deriving Repr

/-- The cache-hit condition of `_get_deye_token` (lines 170-171):
`self._access_token and self._token_expires_at and
datetime.now() < self._token_expires_at`.  Python truthiness makes an
empty-string token falsy; a `datetime` object is always truthy. -/
def cacheHit (cache : TokenCache) (now : Nat) : Bool :=
  match cache.accessToken, cache.tokenExpiresAt with
  | some tok, some expiresAt => tok ≠ "" && now < expiresAt
  | _, _ => false

/-- Seconds in `timedelta(hours=1)`. -/
def oneHour : Nat := 3600

/-- The method `_get_deye_token` (`__init__.py` lines 167-216).  `now` is
`datetime.now()` at the cache check, `receiptTime` is `datetime.now()`
when a fresh token is cached, and `net` is the behavior the network would
exhibit if the POST is made. -/
def getDeyeToken (cache : TokenCache) (now receiptTime : Nat)
    (net : TokenNet) : TokenCallResult :=
  if cacheHit cache now then
    { result := Except.ok cache.accessToken,
      cache := cache, networkCalls := 0 }
  else
    match net with
    | TokenNet.transportErr m =>
      { result := Except.error (TokenError.network m),
        cache := cache, networkCalls := 1 }
    | TokenNet.resp status bodyText success msg accessToken =>
      if status ≠ 200 then
        { result := Except.error (TokenError.authHttp status bodyText),
          cache := cache, networkCalls := 1 }
      else if !success then
        { result := Except.error (TokenError.authFailed (msg.getD "Unknown error")),
          cache := cache, networkCalls := 1 }
      else
        match accessToken with
        | Option.none =>
          { result := Except.error TokenError.noAccessToken,
            cache := cache, networkCalls := 1 }
        | some tokVal =>
          { result := Except.ok tokVal,
            cache := { accessToken := tokVal,
                       tokenExpiresAt := some (receiptTime + oneHour) },
            networkCalls := 1 }

/-- Cache states reachable by a coordinator: the constructed state followed
by any sequence of `_get_deye_token` calls (the only code that assigns
`_access_token` / `_token_expires_at`). -/
inductive ReachableCache : TokenCache → Prop where
  | init : ReachableCache initTokenCache
  | step (cache : TokenCache) (now receiptTime : Nat) (net : TokenNet) :
      ReachableCache cache →
      ReachableCache (getDeyeToken cache now receiptTime net).cache

/-- Configuration of `api` mode: `CONF_URL` and the optional `CONF_TOKEN`. -/
structure ApiConfig where
  url : String
  token : Option String
deriving DecidableEq, Repr

/-- Network behavior of the `api`-mode GET: an `aiohttp.ClientError` or a
response with HTTP status and body text. -/
inductive ApiNet where
  | transportErr (msg : String)
  | resp (status : Nat) (text : String)
deriving DecidableEq, Repr

/-- Errors raised by `_update_from_api`, with the payloads of the Python
f-strings (`f"HTTP {status}: {text[:200]}"` keeps only the first 200
characters of the body). -/
inductive ApiError where
  | httpError (status : Nat) (bodyStart : String)
  | network (msg : String)
deriving DecidableEq, Repr

/-- Headers sent by `_update_from_api` (lines 122-124):
`if self._config.get(CONF_TOKEN)` is Python truthiness, so an absent and
an empty-string token both send no `Authorization` header. -/
def apiRequestHeaders (config : ApiConfig) : List (String × String) :=
  match config.token with
  | some t => if t ≠ "" then [("Authorization", "Bearer " ++ t)] else []
  | Option.none => []

/-- The method `_update_from_api` (`__init__.py` lines 120-132). -/
def updateFromApi (net : ApiNet) : Except ApiError Snapshot :=
  match net with
  | ApiNet.transportErr m => Except.error (ApiError.network m)
  | ApiNet.resp status text =>
    if status ≥ 400 then
      Except.error (ApiError.httpError status ((text.toList.take 200).asString))
    else
      Except.ok (parse_deyecloud_text text)

/-- Reduction modulo `2^32`, the word size of SHA-256. -/
def w32 (n : Nat) : Nat := n % 4294967296

/-- Right rotation of a 32-bit word. -/
def rotr (x n : Nat) : Nat := w32 ((x >>> n) + (x <<< (32 - n)))

/-- Bitwise complement of a 32-bit word. -/
def notw (x : Nat) : Nat := 4294967295 - x

/-- SHA-256 `Ch` function. -/
def shaCh (x y z : Nat) : Nat := Nat.xor (Nat.land x y) (Nat.land (notw x) z)

/-- SHA-256 `Maj` function. -/
def shaMaj (x y z : Nat) : Nat :=
  Nat.xor (Nat.xor (Nat.land x y) (Nat.land x z)) (Nat.land y z)

/-- SHA-256 `Σ0`. -/
def bigSigma0 (x : Nat) : Nat := Nat.xor (Nat.xor (rotr x 2) (rotr x 13)) (rotr x 22)

/-- SHA-256 `Σ1`. -/
def bigSigma1 (x : Nat) : Nat := Nat.xor (Nat.xor (rotr x 6) (rotr x 11)) (rotr x 25)

/-- SHA-256 `σ0`. -/
def smallSigma0 (x : Nat) : Nat := Nat.xor (Nat.xor (rotr x 7) (rotr x 18)) (x >>> 3)

/-- SHA-256 `σ1`. -/
def smallSigma1 (x : Nat) : Nat := Nat.xor (Nat.xor (rotr x 17) (rotr x 19)) (x >>> 10)

/-- SHA-256 round constants. -/
def shaK : List Nat :=
  [1116352408, 1899447441, 3049323471, 3921009573, 961987163,
   1508970993, 2453635748, 2870763221, 3624381080, 310598401,
   607225278, 1426881987, 1925078388, 2162078206, 2614888103,
   3248222580, 3835390401, 4022224774, 264347078, 604807628,
   770255983, 1249150122, 1555081692, 1996064986, 2554220882,
   2821834349, 2952996808, 3210313671, 3336571891, 3584528711,
   113926993, 338241895, 666307205, 773529912, 1294757372,
   1396182291, 1695183700, 1986661051, 2177026350, 2456956037,
   2730485921, 2820302411, 3259730800, 3345764771, 3516065817,
   3600352804, 4094571909, 275423344, 430227734, 506948616,
   659060556, 883997877, 958139571, 1322822218, 1537002063,
   1747873779, 1955562222, 2024104815, 2227730452, 2361852424,
   2428436474, 2756734187, 3204031479, 3329325298]

/-- SHA-256 initial hash value. -/
def shaH0 : List Nat :=
  [1779033703, 3144134277, 1013904242, 2773480762,
   1359893119, 2600822924, 528734635, 1541459225]

/-- UTF-8 encoding of one character (Python `str.encode()`). -/
def utf8Bytes (c : Char) : List Nat :=
  let n := c.toNat
  if n < 128 then [n]
  else if n < 2048 then [192 + n / 64, 128 + n % 64]
  else if n < 65536 then [224 + n / 4096, 128 + n / 64 % 64, 128 + n % 64]
  else [240 + n / 262144, 128 + n / 4096 % 64, 128 + n / 64 % 64, 128 + n % 64]

/-- UTF-8 encoding of a string as a byte list. -/
def utf8Encode (s : String) : List Nat :=
  s.toList.flatMap utf8Bytes

/-- SHA-256 padding: append `0x80`, zero bytes to 56 mod 64, then the
bit length as 8 big-endian bytes. -/
def shaPad (msg : List Nat) : List Nat :=
  let L := msg.length
  let zeros := (55 + 64 - L % 64) % 64
  msg ++ 128 :: List.replicate zeros 0 ++
    (List.range 8).map (fun i => ((L * 8) >>> (8 * (7 - i))) % 256)

/-- Split a byte list into 64-byte blocks. -/
def toBlocks (bytes : List Nat) : List (List Nat) :=
  if h : bytes = [] then []
  else bytes.take 64 :: toBlocks (bytes.drop 64)
termination_by bytes.length
decreasing_by
  cases bytes with
  | nil => exact absurd rfl h
  | cons b bs => simp [List.drop]; omega

/-- Big-endian 32-bit words of one 64-byte block. -/
def blockWords (block : List Nat) : List Nat :=
  (List.range 16).map (fun i =>
    block.getD (4 * i) 0 * 16777216 + block.getD (4 * i + 1) 0 * 65536 +
    block.getD (4 * i + 2) 0 * 256 + block.getD (4 * i + 3) 0)

/-- Extend the 16 message-schedule words to 64. -/
def extendSchedule (w : List Nat) : Nat → List Nat
  | 0 => w
  | k + 1 =>
    let t := w.length
    extendSchedule
      (w ++ [w32 (smallSigma1 (w.getD (t - 2) 0) + w.getD (t - 7) 0 +
        smallSigma0 (w.getD (t - 15) 0) + w.getD (t - 16) 0)]) k

/-- One SHA-256 compression round: state `[a,b,c,d,e,f,g,h]`, round
constant `k`, schedule word `wt`. -/
def shaRound (st : List Nat) (k wt : Nat) : List Nat :=
  let a := st.getD 0 0
  let b := st.getD 1 0
  let c := st.getD 2 0
  let d := st.getD 3 0
  let e := st.getD 4 0
  let f := st.getD 5 0
  let g := st.getD 6 0
  let h := st.getD 7 0
  let t1 := w32 (h + bigSigma1 e + shaCh e f g + k + wt)
  let t2 := w32 (bigSigma0 a + shaMaj a b c)
  [w32 (t1 + t2), a, b, c, w32 (d + t1), e, f, g]

/-- Compress one 64-byte block into the running hash. -/
def compressBlock (hsh : List Nat) (block : List Nat) : List Nat :=
  let w := extendSchedule (blockWords block) 48
  let st := (List.range 64).foldl
    (fun st t => shaRound st (shaK.getD t 0) (w.getD t 0)) hsh
  (List.range 8).map (fun i => w32 (hsh.getD i 0 + st.getD i 0))

/-- Big-endian bytes of one 32-bit word. -/
def wordBytes (x : Nat) : List Nat :=
  [x / 16777216 % 256, x / 65536 % 256, x / 256 % 256, x % 256]

/-- SHA-256 digest (32 bytes) of a byte list. -/
def sha256 (msg : List Nat) : List Nat :=
  ((toBlocks (shaPad msg)).foldl compressBlock shaH0).flatMap wordBytes

/-- Lowercase hex character of a nibble. -/
def hexChar (n : Nat) : Char :=
  "0123456789abcdef".toList.getD n '0'

/-- Lowercase hex rendering of a byte list. -/
def bytesToHex (bytes : List Nat) : List Char :=
  bytes.flatMap (fun b => [hexChar (b / 16 % 16), hexChar (b % 16)])

/-- Python `hashlib.sha256(s.encode()).hexdigest()`: the lowercase
hex-encoded SHA-256 digest of the UTF-8 encoding of `s`. -/
def sha256Hexdigest (s : String) : String :=
  (bytesToHex (sha256 (utf8Encode s))).asString

/-- Configuration of `deye_direct` mode. -/
structure DeyeConfig where
  appId : String
  appSecret : String
  email : String
  password : String
  deviceSn : String
  server : String
deriving DecidableEq, Repr

/-- An outbound HTTP POST as this integration assembles it: URL, query
parameters, and the string fields of the JSON body. -/
structure PostRequest where
  url : String
  params : List (String × String)
  body : List (String × String)
deriving DecidableEq, Repr

/-- The token request built by `_get_deye_token` (`__init__.py` lines
176-193): query parameter `appId`, JSON body `appSecret`, `email` and the
SHA-256 hex digest of the configured password. -/
def buildTokenRequest (config : DeyeConfig) : PostRequest :=
  { url := "https://" ++ config.server ++ "-developer.deyecloud.com/v1.0/account/token",
    params := [("appId", config.appId)],
    body := [("appSecret", config.appSecret),
             ("email", config.email),
             ("password", sha256Hexdigest config.password)] }

/-- The token request built by the setup-time validation path
`_validate_config` (`config_flow.py` lines 101-115). -/
def buildValidateRequest (config : DeyeConfig) : PostRequest :=
  { url := "https://" ++ config.server ++ "-developer.deyecloud.com/v1.0/account/token",
    params := [("appId", config.appId)],
    body := [("appSecret", config.appSecret),
             ("email", config.email),
             ("password", sha256Hexdigest config.password)] }

/-- All string values transmitted in a request (query parameters and JSON
body fields). -/
def transmittedValues (req : PostRequest) : List String :=
  req.params.map Prod.snd ++ req.body.map Prod.snd

/-! ### Ordered-dict lemmas -/

theorem lookupKey_map_update (d : Snapshot) (k : String) (v : Reading)
    (h : d.any (fun p => p.1 = k) = true) :
    lookupKey (d.map (fun p => if p.1 = k then (k, v) else p)) k = some v := by
  induction d with
  | nil => simp at h
  | cons p rest ih =>
    by_cases hp : p.1 = k
    · simp [lookupKey, hp]
    · simp only [List.any_cons, Bool.or_eq_true, decide_eq_true_eq] at h
      rcases h with h | h
      · exact absurd h hp
      · simp only [List.map_cons, if_neg hp, lookupKey]
        exact ih h

theorem lookupKey_append_single (d : Snapshot) (k : String) (v : Reading)
    (h : d.any (fun p => p.1 = k) = false) :
    lookupKey (d ++ [(k, v)]) k = some v := by
  induction d with
  | nil => simp [lookupKey]
  | cons p rest ih =>
    simp only [List.any_cons, Bool.or_eq_false_iff, decide_eq_false_iff_not] at h
    simp only [List.cons_append, lookupKey]
    rw [if_neg h.1]
    exact ih (by simp [h.2])

/-- After `data[k] = v`, looking up `k` finds `v`. -/
theorem lookupKey_dictInsert_self (d : Snapshot) (k : String) (v : Reading) :
    lookupKey (dictInsert d k v) k = some v := by
  unfold dictInsert
  split
  · next h => exact lookupKey_map_update d k v h
  · next h =>
    exact lookupKey_append_single d k v (Bool.eq_false_iff.mpr h)

theorem lookupKey_map_ne (d : Snapshot) (k k' : String) (v : Reading)
    (h : k' ≠ k) :
    lookupKey (d.map (fun p => if p.1 = k then (k, v) else p)) k' =
      lookupKey d k' := by
  induction d with
  | nil => rfl
  | cons p rest ih =>
    by_cases hp : p.1 = k
    · simp only [List.map_cons, if_pos hp, lookupKey]
      rw [if_neg (fun hk => h hk.symm), if_neg (fun hk => h (hp ▸ hk).symm)]
      exact ih
    · simp only [List.map_cons, if_neg hp, lookupKey]
      by_cases hp' : p.1 = k'
      · rw [if_pos hp', if_pos hp']
      · rw [if_neg hp', if_neg hp']
        exact ih

theorem lookupKey_append_ne (d : Snapshot) (k k' : String) (v : Reading)
    (h : k' ≠ k) :
    lookupKey (d ++ [(k, v)]) k' = lookupKey d k' := by
  induction d with
  | nil =>
    simp only [List.nil_append, lookupKey]
    rw [if_neg (fun hk => h hk.symm)]
  | cons p rest ih =>
    simp only [List.cons_append, lookupKey]
    by_cases hp : p.1 = k'
    · rw [if_pos hp, if_pos hp]
    · rw [if_neg hp, if_neg hp]
      exact ih

/-- After `data[k] = v`, looking up another key is unchanged. -/
theorem lookupKey_dictInsert_ne (d : Snapshot) (k k' : String) (v : Reading)
    (h : k' ≠ k) :
    lookupKey (dictInsert d k v) k' = lookupKey d k' := by
  unfold dictInsert
  split
  · exact lookupKey_map_ne d k k' v h
  · exact lookupKey_append_ne d k k' v h

/-! ### Claim C1: synthetic readings of the cloud conversion -/

/-- Claim C1, counterexample.  The claim says `_convert_deye_response`
still contains the synthetic `device_online` and `last_update` readings
when `deviceDataList` is empty or absent, or when the first device has no
`dataList`.  On the code, all three of these inputs take the early-return
branch and yield the empty snapshot, with no synthetic readings at all. -/
theorem convertDeyeResponse_empty_payload_has_no_synthetics :
    lookupKey (convertDeyeResponse ⟨some []⟩ "2026-01-01T00:00:00") "device_online" =
      Option.none ∧
    convertDeyeResponse ⟨some []⟩ "2026-01-01T00:00:00" = [] ∧
    convertDeyeResponse ⟨Option.none⟩ "2026-01-01T00:00:00" = [] ∧
    convertDeyeResponse ⟨some [⟨Option.none⟩]⟩ "2026-01-01T00:00:00" = [] ∧
    convertDeyeResponse ⟨some [⟨some []⟩]⟩ "2026-01-01T00:00:00" = [] :=
  ⟨rfl, rfl, rfl, rfl, rfl⟩

/-- Claim C1, amended.  `_convert_deye_response` injects the synthetic
readings `device_online` (boolean true) and `last_update` (the fetch
timestamp) exactly when the response carries a non-empty `deviceDataList`
whose first device has a non-empty `dataList`; on every empty-payload
response it returns the empty snapshot, without the synthetic readings. -/
theorem convertDeyeResponse_synthetics_iff_payload
    (apiData : ApiData) (nowIso : String) :
    (firstDeviceItems apiData = Option.none →
      convertDeyeResponse apiData nowIso = []) ∧
    (∀ items, firstDeviceItems apiData = some items →
      lookupKey (convertDeyeResponse apiData nowIso) "device_online" =
        some ⟨"Device Online", PyVal.bool true, Option.none⟩ ∧
      lookupKey (convertDeyeResponse apiData nowIso) "last_update" =
        some ⟨"Last Update", PyVal.str nowIso, Option.none⟩) := by
  constructor
  · intro h
    unfold convertDeyeResponse
    rw [h]
  · intro items h
    unfold convertDeyeResponse
    rw [h]
    refine ⟨?_, ?_⟩
    · rw [lookupKey_dictInsert_ne _ _ _ _ (by decide),
        lookupKey_dictInsert_self]
    · rw [lookupKey_dictInsert_self]

/-- Claim C1, witness: the amended theorem applied to a concrete
one-item payload and to a concrete empty payload. -/
theorem convertDeyeResponse_synthetics_iff_payload_witness :
    (lookupKey
      (convertDeyeResponse ⟨some [⟨some [⟨some "PV Power", PyVal.int 1, some "W"⟩]⟩]⟩
        "2026-01-01T00:00:00") "device_online" =
      some ⟨"Device Online", PyVal.bool true, Option.none⟩ ∧
     lookupKey
      (convertDeyeResponse ⟨some [⟨some [⟨some "PV Power", PyVal.int 1, some "W"⟩]⟩]⟩
        "2026-01-01T00:00:00") "last_update" =
      some ⟨"Last Update", PyVal.str "2026-01-01T00:00:00", Option.none⟩) ∧
    convertDeyeResponse ⟨some [⟨some []⟩]⟩ "2026-01-01T00:00:00" = [] :=
  ⟨(convertDeyeResponse_synthetics_iff_payload _ _).2
      [⟨some "PV Power", PyVal.int 1, some "W"⟩] rfl,
   (convertDeyeResponse_synthetics_iff_payload _ _).1 rfl⟩

/-! ### Claim C9: unit handling when the source supplies none -/

/-- Claim C9, counterexample.  The claim says a cloud data item with no
`unit` field yields a reading whose unit is null.  On the code,
`item.get("unit", "")` defaults to the empty string, so the produced
reading's unit is `""`, not `None`. -/
theorem convertDeyeResponse_missing_unit_is_empty_string :
    lookupKey
      (convertDeyeResponse ⟨some [⟨some [⟨some "PV", PyVal.str "1", Option.none⟩]⟩]⟩
        "2026-01-01T00:00:00") "pv" =
      some ⟨"PV", PyVal.int 1, some ""⟩ ∧
    (some "" : Option String) ≠ Option.none :=
  ⟨rfl, by decide⟩

/-- Claim C9, amended.  When the source supplies no unit, the text parser
stores a null unit (a line with exactly two fragments), while the cloud
conversion stores the empty string (`item.get("unit", "")`), not null. -/
theorem missing_unit_null_in_text_empty_string_in_cloud
    (data : Snapshot) (item : DataItem) (k : String) (rawLine : List Char) :
    (item.key = some k → k ≠ "" → item.unit = Option.none →
      lookupKey (convertItem data item) (normalize_key k) =
        some ⟨k, convertValue item.value, some ""⟩) ∧
    (((splitTab (pyStripList rawLine)).filter (fun p => p ≠ [])).length = 2 →
      parseTextLine data rawLine =
        dictInsert data
          (normalize_key (pyStrip
            (((splitTab (pyStripList rawLine)).filter (fun p => p ≠ [])).getD 0 []).asString))
          ⟨pyStrip (((splitTab (pyStripList rawLine)).filter (fun p => p ≠ [])).getD 0 []).asString,
           coerceTextValue (pyStrip
             (((splitTab (pyStripList rawLine)).filter (fun p => p ≠ [])).getD 1 []).asString),
           Option.none⟩) := by
  constructor
  · intro hk hne hu
    unfold convertItem
    rw [hk, hu]
    simp only [Option.getD_some, Option.getD_none]
    rw [if_neg hne]
    exact lookupKey_dictInsert_self _ _ _
  · intro hlen
    have hemp : (pyStripList rawLine).isEmpty = false := by
      cases hsl : pyStripList rawLine with
      | nil => rw [hsl] at hlen; simp [splitTab] at hlen
      | cons a l => simp
    simp only [parseTextLine, hemp, if_false, hlen]
    norm_num

/-- Claim C9, witness: the amended theorem applied to a concrete cloud
item without a unit and to a concrete two-fragment text line. -/
theorem missing_unit_null_in_text_empty_string_in_cloud_witness :
    lookupKey (convertItem [] ⟨some "PV", PyVal.str "3", Option.none⟩) "pv" =
      some ⟨"PV", PyVal.int 3, some ""⟩ ∧
    parseTextLine [] "A\t5".toList = [("a", ⟨"A", PyVal.int 5, Option.none⟩)] :=
  ⟨(missing_unit_null_in_text_empty_string_in_cloud []
      ⟨some "PV", PyVal.str "3", Option.none⟩ "PV" "A\t5".toList).1 rfl
      (by decide) rfl,
   (missing_unit_null_in_text_empty_string_in_cloud []
      ⟨some "PV", PyVal.str "3", Option.none⟩ "PV" "A\t5".toList).2 (by decide)⟩

/-! ### Claim C2: value coercion -/

/-- Claim C2, counterexample.  The claim says `coerce_value("null")` is
null on both paths.  The text parser's sentinel set (line 336) is
`{"nan", "inf", "-inf"}` — it does not contain `"null"` — and `int("null")`
fails, so the text path returns the string `"null"`. -/
theorem coerceTextValue_null_is_string :
    coerceTextValue "null" = PyVal.str "null" ∧
    PyVal.str "null" ≠ PyVal.none :=
  ⟨rfl, by decide⟩

/-- Claim C2, amended.  Value coercion behaves as claimed except on the
text path's `"null"`: the text parser maps only `nan`/`inf`/`-inf`
(case-insensitively) to null and parses/preserves everything else, so
`coerce_value("null")` is the string `"null"` there, while the cloud
conversion also maps `"null"` to null.  Both coercions are total and
never produce a boolean from text. -/
theorem coerce_value_spec :
    coerceTextValue "12" = PyVal.int 12 ∧
    coerceTextValue "12.5" = PyVal.float (25 / 2) ∧
    coerceTextValue "1e3" = PyVal.float 1000 ∧
    coerceTextValue "nan" = PyVal.none ∧
    coerceTextValue "abc" = PyVal.str "abc" ∧
    coerceTextValue "null" = PyVal.str "null" ∧
    convertValue (PyVal.str "12") = PyVal.int 12 ∧
    convertValue (PyVal.str "12.5") = PyVal.float (25 / 2) ∧
    convertValue (PyVal.str "1e3") = PyVal.float 1000 ∧
    convertValue (PyVal.str "nan") = PyVal.none ∧
    convertValue (PyVal.str "abc") = PyVal.str "abc" ∧
    convertValue (PyVal.str "null") = PyVal.none ∧
    (∀ s : String, pyLower s ∈ ["nan", "inf", "-inf"] →
      coerceTextValue s = PyVal.none) ∧
    (∀ s : String, pyLower s ∈ ["nan", "inf", "-inf", "null"] →
      convertValue (PyVal.str s) = PyVal.none) ∧
    (∀ s : String, ∀ b : Bool,
      coerceTextValue s ≠ PyVal.bool b ∧ convertValue (PyVal.str s) ≠ PyVal.bool b) := by
  have h125 : coerceTextValue "12.5" = PyVal.float (25 / 2) := by
    have h : coerceTextValue "12.5" =
        PyVal.float ((12 : ℚ) + (5 : ℚ) / (10 : ℚ) ^ (1 : ℕ)) := rfl
    rw [h]; norm_num
  have h1e3 : coerceTextValue "1e3" = PyVal.float 1000 := by
    have h : coerceTextValue "1e3" =
        PyVal.float ((1 : ℚ) * (10 : ℚ) ^ ((3 : ℕ) : ℤ)) := rfl
    rw [h]; norm_num
  have hc125 : convertValue (PyVal.str "12.5") = PyVal.float (25 / 2) := by
    have h : convertValue (PyVal.str "12.5") =
        PyVal.float ((12 : ℚ) + (5 : ℚ) / (10 : ℚ) ^ (1 : ℕ)) := rfl
    rw [h]; norm_num
  have hc1e3 : convertValue (PyVal.str "1e3") = PyVal.float 1000 := by
    have h : convertValue (PyVal.str "1e3") =
        PyVal.float ((1 : ℚ) * (10 : ℚ) ^ ((3 : ℕ) : ℤ)) := rfl
    rw [h]; norm_num
  refine ⟨rfl, h125, h1e3, rfl, rfl, rfl, rfl, hc125, hc1e3, rfl, rfl, rfl,
    ?_, ?_, ?_⟩
  · intro s hs
    unfold coerceTextValue
    rw [if_pos hs]
  · intro s hs
    simp only [convertValue]
    rw [if_pos hs]
  · intro s b
    constructor
    · unfold coerceTextValue
      split
      · exact fun h => PyVal.noConfusion h
      · split
        · split <;> exact fun h => PyVal.noConfusion h
        · split <;> exact fun h => PyVal.noConfusion h
    · simp only [convertValue]
      split
      · exact fun h => PyVal.noConfusion h
      · split
        · split <;> exact fun h => PyVal.noConfusion h
        · split <;> exact fun h => PyVal.noConfusion h

/-- Claim C2, witness: the two sentinel rules of the amended theorem
applied to concrete mixed-case inputs. -/
theorem coerce_value_spec_witness :
    coerceTextValue "NaN" = PyVal.none ∧
    convertValue (PyVal.str "Null") = PyVal.none :=
  ⟨coerce_value_spec.2.2.2.2.2.2.2.2.2.2.2.2.1 "NaN" (by decide),
   coerce_value_spec.2.2.2.2.2.2.2.2.2.2.2.2.2.1 "Null" (by decide)⟩

/-! ### Claim C5: the text parser -/

/-- A line whose stripped form splits into fewer than two non-empty
tab-fragments contributes nothing (blank lines included: their fragment
list is empty). -/
theorem parseTextLine_skip (data : Snapshot) (rawLine : List Char)
    (h : ((splitTab (pyStripList rawLine)).filter (fun p => p ≠ [])).length < 2) :
    parseTextLine data rawLine = data := by
  cases he : (pyStripList rawLine).isEmpty with
  | true => simp only [parseTextLine, he, if_true]
  | false =>
    simp only [parseTextLine, he, Bool.false_eq_true, if_false]
    exact if_pos h

theorem foldl_parseTextLine_skip (lines : List (List Char)) (data : Snapshot)
    (h : ∀ l ∈ lines,
      ((splitTab (pyStripList l)).filter (fun p => p ≠ [])).length < 2) :
    lines.foldl parseTextLine data = data := by
  induction lines generalizing data with
  | nil => rfl
  | cons l rest ih =>
    rw [List.foldl_cons, parseTextLine_skip data l (h l (by simp))]
    exact ih data (fun l' hl' => h l' (by simp [hl']))

/-- Claim C5.  The text parser processes lines by splitting on tabs and
discarding empty fragments, silently skips lines with fewer than two
fragments, returns the empty snapshot on empty or fully-malformed input,
and yields exactly the two claimed readings on the claimed input.
(The parser is a total Lean function, so it cannot raise.) -/
theorem parse_deyecloud_text_spec (raw : String) :
    parse_deyecloud_text "Grid Power\t1500\tW\nBattery SOC\t85\t%\n\n" =
      [("grid_power", ⟨"Grid Power", PyVal.int 1500, some "W"⟩),
       ("battery_soc", ⟨"Battery SOC", PyVal.int 85, some "%"⟩)] ∧
    parse_deyecloud_text "" = [] ∧
    ((∀ line ∈ pySplitlines raw.toList,
        ((splitTab (pyStripList line)).filter (fun p => p ≠ [])).length < 2) →
      parse_deyecloud_text raw = []) :=
  ⟨by decide, rfl, fun h => foldl_parseTextLine_skip _ _ h⟩

/-- Claim C5, witness: the fully-malformed conjunct applied to a concrete
input whose lines all lack a second fragment. -/
theorem parse_deyecloud_text_spec_witness :
    parse_deyecloud_text "abc\n\tx\t\n  \n" = [] :=
  (parse_deyecloud_text_spec "abc\n\tx\t\n  \n").2.2 (by decide)

/-! ### Claim C6: api-mode status handling -/

/-- Claim C6, counterexample.  The claim says every non-2xx response is a
hard failure, but `_update_from_api` only raises for `status >= 400`: the
non-2xx status 301 is handed to the text parser as a success. -/
theorem updateFromApi_301_is_not_failure :
    updateFromApi (ApiNet.resp 301 "Grid Power\t1500\tW") =
      Except.ok [("grid_power", ⟨"Grid Power", PyVal.int 1500, some "W"⟩)] ∧
    ¬(200 ≤ 301 ∧ 301 < 300) :=
  ⟨rfl, by decide⟩

/-- Claim C6, amended.  In `api` mode a response with status `>= 400`
(rather than any non-2xx status) is a hard failure whose error carries the
first 200 characters of the body; any response below 400 is handed to the
text parser; a transport error is re-raised as a classified failure. -/
theorem updateFromApi_spec (status : Nat) (text : String) :
    (status ≥ 400 → updateFromApi (ApiNet.resp status text) =
      Except.error (ApiError.httpError status ((text.toList.take 200).asString))) ∧
    (status < 400 → updateFromApi (ApiNet.resp status text) =
      Except.ok (parse_deyecloud_text text)) ∧
    (∀ m, updateFromApi (ApiNet.transportErr m) =
      Except.error (ApiError.network m)) := by
  refine ⟨?_, ?_, fun m => rfl⟩
  · intro h
    simp only [updateFromApi]
    rw [if_pos h]
  · intro h
    simp only [updateFromApi]
    rw [if_neg (by omega)]

/-- Claim C6, witness: the amended theorem applied at status 500 and at
status 200. -/
theorem updateFromApi_spec_witness :
    updateFromApi (ApiNet.resp 500 "oops") =
      Except.error (ApiError.httpError 500 "oops") ∧
    updateFromApi (ApiNet.resp 200 "A\t5") =
      Except.ok [("a", ⟨"A", PyVal.int 5, Option.none⟩)] :=
  ⟨(updateFromApi_spec 500 "oops").1 (by decide),
   (updateFromApi_spec 200 "A\t5").2.1 (by decide)⟩

/-! ### Claim C3: the retry controller -/

/-- Claim C3.  With the coordinator's `max_attempts = 3`: an operation
failing twice then succeeding returns the success after exactly 2 delayed
retries (3 invocations, 2 sleeps); an operation failing three times
raises a single terminal `UpdateFailed` wrapping the last underlying
failure, after exactly 2 sleeps and 3 invocations; an operation that
succeeds immediately is invoked once and never retried or delayed. -/
theorem updateWithRetry_spec {E A : Type} (op : Nat → Except E A)
    (e0 e1 e2 : E) (a : A) :
    (op 0 = Except.error e0 → op 1 = Except.error e1 → op 2 = Except.ok a →
      updateWithRetry op =
        { result := Except.ok a, sleeps := 2, calls := 3 }) ∧
    (op 0 = Except.error e0 → op 1 = Except.error e1 → op 2 = Except.error e2 →
      updateWithRetry op =
        { result := Except.error (RetryFailure.updateFailed (some e2)),
          sleeps := 2, calls := 3 }) ∧
    (op 0 = Except.ok a →
      updateWithRetry op =
        { result := Except.ok a, sleeps := 0, calls := 1 }) := by
  refine ⟨?_, ?_, ?_⟩
  · intro h0 h1 h2
    simp only [updateWithRetry, maxRetriesConst]
    rw [retryFrom]
    simp only [h0]
    rw [retryFrom]
    simp only [h1]
    rw [retryFrom]
    simp only [h2]
    norm_num
  · intro h0 h1 h2
    simp only [updateWithRetry, maxRetriesConst]
    rw [retryFrom]
    simp only [h0]
    rw [retryFrom]
    simp only [h1]
    rw [retryFrom]
    simp only [h2]
    rw [retryFrom]
    norm_num
  · intro h0
    simp only [updateWithRetry, maxRetriesConst]
    rw [retryFrom]
    simp only [h0]
    norm_num

/-- Claim C3, witness: the three scenarios of the retry theorem at
concrete operations. -/
theorem updateWithRetry_spec_witness :
    updateWithRetry (fun i => if i < 2 then Except.error "down" else Except.ok 7) =
      { result := Except.ok 7, sleeps := 2, calls := 3 } ∧
    updateWithRetry (fun _ => (Except.error "down" : Except String Nat)) =
      { result := Except.error (RetryFailure.updateFailed (some "down")),
        sleeps := 2, calls := 3 } ∧
    updateWithRetry (fun _ => (Except.ok 7 : Except String Nat)) =
      { result := Except.ok 7, sleeps := 0, calls := 1 } :=
  ⟨(updateWithRetry_spec _ "down" "down" "down" 7).1 rfl rfl rfl,
   (updateWithRetry_spec _ "down" "down" "down" 7).2.1 rfl rfl rfl,
   (updateWithRetry_spec (fun _ => (Except.ok 7 : Except String Nat))
      "x" "x" "x" 7).2.2 rfl⟩

/-! ### Claim C4: the token cache -/

/-- Claim C4, counterexample.  The claim says any existing cached token
that is unexpired is returned without a network call.  The Python guard
`if (self._access_token and ...)` uses string truthiness, so the cache
state holding the empty-string token (cached verbatim from a success
response with `accessToken = ""`) exists and is unexpired, yet
`_get_deye_token` performs a network call. -/
theorem getDeyeToken_empty_token_hits_network :
    (⟨some "", some 10⟩ : TokenCache).accessToken ≠ Option.none ∧
    (0 : Nat) < 10 ∧
    (getDeyeToken ⟨some "", some 10⟩ 0 0 (TokenNet.transportErr "down")).networkCalls = 1 ∧
    (getDeyeToken initTokenCache 5 5
      (TokenNet.resp 200 "" true Option.none (some (some "")))).cache =
      ⟨some "", some (5 + oneHour)⟩ :=
  ⟨by decide, by decide, rfl, rfl⟩

/-- Claim C4, amended.  If a non-empty token is cached and the current
time is strictly before the cached expiry, `_get_deye_token` returns the
identical cached token, leaves the cache unchanged and performs no network
call; in every other cache state it performs exactly one network call, and
on a success response it caches the returned token with an expiry one hour
from the moment of receipt. -/
theorem getDeyeToken_cache_spec (cache : TokenCache) (now receiptTime : Nat)
    (net : TokenNet) :
    (∀ tok expiresAt, cache.accessToken = some tok → tok ≠ "" →
      cache.tokenExpiresAt = some expiresAt → now < expiresAt →
      getDeyeToken cache now receiptTime net =
        ⟨Except.ok (some tok), cache, 0⟩) ∧
    (cacheHit cache now = false →
      (getDeyeToken cache now receiptTime net).networkCalls = 1 ∧
      (∀ body msg tokVal, net = TokenNet.resp 200 body true msg (some tokVal) →
        getDeyeToken cache now receiptTime net =
          ⟨Except.ok tokVal, ⟨tokVal, some (receiptTime + oneHour)⟩, 1⟩)) := by
  constructor
  · intro tok expiresAt htok hne hexp hlt
    have hhit : cacheHit cache now = true := by
      unfold cacheHit
      rw [htok, hexp]
      simp [hne, hlt]
    unfold getDeyeToken
    simp only [hhit, eq_self_iff_true, if_true, htok]
  · intro hmiss
    constructor
    · unfold getDeyeToken
      simp only [hmiss, Bool.false_eq_true, if_false]
      cases net with
      | transportErr m => rfl
      | resp status body success msg accessToken =>
        by_cases hs : status ≠ 200
        · simp only [if_pos hs]
        · simp only [if_neg hs]
          cases success with
          | false => rfl
          | true =>
            cases accessToken with
            | none => rfl
            | some tokVal => rfl
    · intro body msg tokVal hnet
      subst hnet
      unfold getDeyeToken
      simp only [hmiss, Bool.false_eq_true, if_false]
      rfl

/-- Claim C4, witness: a cache hit on a concrete non-empty unexpired token
and a cache miss on the empty cache with a concrete success response. -/
theorem getDeyeToken_cache_spec_witness :
    getDeyeToken ⟨some "tok1", some 100⟩ 50 50 (TokenNet.transportErr "down") =
      ⟨Except.ok (some "tok1"), ⟨some "tok1", some 100⟩, 0⟩ ∧
    getDeyeToken initTokenCache 50 50
      (TokenNet.resp 200 "" true Option.none (some (some "tok2"))) =
      ⟨Except.ok (some "tok2"), ⟨some "tok2", some (50 + oneHour)⟩, 1⟩ :=
  ⟨(getDeyeToken_cache_spec ⟨some "tok1", some 100⟩ 50 50
      (TokenNet.transportErr "down")).1 "tok1" 100 rfl (by decide) rfl (by decide),
   (getDeyeToken_cache_spec initTokenCache 50 50
      (TokenNet.resp 200 "" true Option.none (some (some "tok2")))).2 rfl |>.2
      "" Option.none (some "tok2") rfl⟩

/-! ### Claim C10: token-cache invariants -/

/-- Any `_get_deye_token` call leaves the cache unchanged or assigns both
fields, the expiry always to a set value and the token to whatever the
response carried — possibly Python `None` for a present-but-null
`accessToken`. -/
theorem getDeyeToken_cache_cases (cache : TokenCache) (now receiptTime : Nat)
    (net : TokenNet) :
    (getDeyeToken cache now receiptTime net).cache = cache ∨
    ∃ tokVal, (getDeyeToken cache now receiptTime net).cache =
      ⟨tokVal, some (receiptTime + oneHour)⟩ := by
  unfold getDeyeToken
  by_cases hhit : cacheHit cache now
  · rw [if_pos hhit]
    exact Or.inl rfl
  · rw [if_neg hhit]
    cases net with
    | transportErr m => exact Or.inl rfl
    | resp status body success msg accessToken =>
      by_cases hs : status ≠ 200
      · simp only [if_pos hs]
        exact Or.inl trivial
      · simp only [if_neg hs]
        cases success with
        | false => exact Or.inl rfl
        | true =>
          cases accessToken with
          | none => exact Or.inl rfl
          | some tokVal => exact Or.inr ⟨tokVal, rfl⟩

/-- A failing `_get_deye_token` call leaves the cache unchanged. -/
theorem getDeyeToken_error_preserves_cache (cache : TokenCache)
    (now receiptTime : Nat) (net : TokenNet) (e : TokenError)
    (herr : (getDeyeToken cache now receiptTime net).result = Except.error e) :
    (getDeyeToken cache now receiptTime net).cache = cache := by
  unfold getDeyeToken at herr ⊢
  by_cases hhit : cacheHit cache now
  · rw [if_pos hhit]
  · rw [if_neg hhit] at herr ⊢
    cases net with
    | transportErr m => rfl
    | resp status body success msg accessToken =>
      by_cases hs : status ≠ 200
      · simp only [if_pos hs]
      · simp only [if_neg hs] at herr ⊢
        cases success with
        | false => rfl
        | true =>
          cases accessToken with
          | none => rfl
          | some tokVal => exact absurd herr (by simp)

/-- Claim C10, counterexample.  The claim says both cache fields are
`None` together or set together in every reachable state.  But the guard
at line 205 is a key-presence check — `"accessToken" not in result` — so a
success response whose `accessToken` is present but JSON null passes it,
and lines 209-210 then assign `self._access_token = None` while setting
`self._token_expires_at` one hour ahead: a reachable state with the token
unset and the expiry set. -/
theorem tokenCache_null_token_breaks_both_none_invariant :
    ReachableCache ⟨Option.none, some oneHour⟩ ∧
    ¬(((⟨Option.none, some oneHour⟩ : TokenCache).accessToken = Option.none) ↔
      ((⟨Option.none, some oneHour⟩ : TokenCache).tokenExpiresAt = Option.none)) :=
  ⟨ReachableCache.step initTokenCache 0 0
      (TokenNet.resp 200 "" true Option.none (some Option.none))
      ReachableCache.init,
   by decide⟩

/-- Claim C10, amended.  In every reachable coordinator state, a set
`_access_token` implies a set `_token_expires_at` (the converse fails: a
success response with a present-but-null `accessToken` caches `None`
together with a set expiry), and every failing `_get_deye_token`
execution — non-200 status, falsy success flag, missing `accessToken`
key, or transport error — leaves both cache fields exactly as they were. -/
theorem tokenCache_invariant_amended :
    (∀ cache, ReachableCache cache → cache.accessToken ≠ Option.none →
      cache.tokenExpiresAt ≠ Option.none) ∧
    (∀ cache now receiptTime net e,
      (getDeyeToken cache now receiptTime net).result = Except.error e →
      (getDeyeToken cache now receiptTime net).cache = cache) := by
  constructor
  · intro cache hreach
    induction hreach with
    | init => intro h; exact absurd rfl h
    | step cache now receiptTime net _ ih =>
      rcases getDeyeToken_cache_cases cache now receiptTime net with h | ⟨tokVal, h⟩
      · rw [h]; exact ih
      · rw [h]; intro _; simp
  · exact getDeyeToken_error_preserves_cache

/-- Claim C10, witness: the amended invariant at a concrete reachable
state holding a token, and cache preservation on a concrete failing
call. -/
theorem tokenCache_invariant_amended_witness :
    (⟨some "tok", some oneHour⟩ : TokenCache).tokenExpiresAt ≠ Option.none ∧
    (getDeyeToken initTokenCache 0 0 (TokenNet.transportErr "down")).cache =
      initTokenCache :=
  ⟨tokenCache_invariant_amended.1 ⟨some "tok", some oneHour⟩
      (ReachableCache.step initTokenCache 0 0
        (TokenNet.resp 200 "" true Option.none (some (some "tok")))
        ReachableCache.init)
      (by decide),
   tokenCache_invariant_amended.2 initTokenCache 0 0 (TokenNet.transportErr "down")
     (TokenError.network "down") rfl⟩

/-! ### Claim C7: algebra of normalize_key -/

theorem toList_asString (l : List Char) : l.asString.toList = l := rfl

theorem char_eq_of_toNat_eq {a b : Char} (h : a.toNat = b.toNat) : a = b :=
  Char.ext (UInt32.ext h)

theorem charOfNat_toNat (n : Nat) (h : n < 55296) : (Char.ofNat n).toNat = n := by
  simp [Char.ofNat, Char.ofNatAux, Char.toNat]
  rw [dif_pos (Or.inl h)]
  rfl

theorem toLower_toNat (c : Char) :
    c.toLower.toNat =
      if c.toNat ≥ 65 ∧ c.toNat ≤ 90 then c.toNat + 32 else c.toNat := by
  simp only [Char.toLower]
  split
  · next h => exact charOfNat_toNat _ (by omega)
  · rfl

theorem toLower_toLower (c : Char) : c.toLower.toLower = c.toLower := by
  simp only [Char.toLower]
  split
  · next h =>
    have hv : (Char.ofNat (c.toNat + 32)).toNat = c.toNat + 32 :=
      charOfNat_toNat _ (by omega)
    rw [hv, if_neg (by omega)]
  · rfl

theorem char_eq_iff_toNat (c d : Char) : c = d ↔ c.toNat = d.toNat :=
  ⟨fun h => h ▸ rfl, char_eq_of_toNat_eq⟩

theorem pyIsSpace_iff (c : Char) :
    pyIsSpace c = true ↔
      (c.toNat = 32 ∨ c.toNat = 9 ∨ c.toNat = 10 ∨ c.toNat = 13 ∨
       c.toNat = 11 ∨ c.toNat = 12) := by
  unfold pyIsSpace
  simp only [Bool.or_eq_true, decide_eq_true_eq, char_eq_iff_toNat,
    show (' ' : Char).toNat = 32 from rfl, show ('\t' : Char).toNat = 9 from rfl,
    show ('\n' : Char).toNat = 10 from rfl, show ('\r' : Char).toNat = 13 from rfl,
    show ('\x0b' : Char).toNat = 11 from rfl, show ('\x0c' : Char).toNat = 12 from rfl]
  tauto

theorem isReplacedChar_iff (c : Char) :
    isReplacedChar c = true ↔
      (c.toNat = 32 ∨ c.toNat = 47 ∨ c.toNat = 45 ∨ c.toNat = 40 ∨
       c.toNat = 41) := by
  unfold isReplacedChar
  simp only [Bool.or_eq_true, decide_eq_true_eq, char_eq_iff_toNat,
    show (' ' : Char).toNat = 32 from rfl, show ('/' : Char).toNat = 47 from rfl,
    show ('-' : Char).toNat = 45 from rfl, show ('(' : Char).toNat = 40 from rfl,
    show (')' : Char).toNat = 41 from rfl]
  tauto

/-- Lowercasing never creates whitespace. -/
theorem pyIsSpace_toLower (c : Char) (h : pyIsSpace c = false) :
    pyIsSpace c.toLower = false := by
  rw [← Bool.not_eq_true] at h ⊢
  rw [pyIsSpace_iff] at h ⊢
  rw [toLower_toNat]
  split <;> omega

/-- The special-character replacement map of `normalize_key`. -/
theorem pyIsSpace_replaceChar (c : Char) (h : pyIsSpace c = false) :
    pyIsSpace (if isReplacedChar c then '_' else c) = false := by
  split
  · decide
  · exact h

/-- Every character of a replaced-and-lowered string is fixed by `toLower`
and is not a replacement target. -/
theorem replaceSpecials_mem_clean (l : List Char) (c : Char)
    (hc : c ∈ replaceSpecials (l.map Char.toLower)) :
    c.toLower = c ∧ isReplacedChar c = false := by
  unfold replaceSpecials at hc
  rw [List.mem_map] at hc
  obtain ⟨c', hc', rfl⟩ := hc
  rw [List.mem_map] at hc'
  obtain ⟨d, _, rfl⟩ := hc'
  by_cases hr : isReplacedChar d.toLower
  · rw [if_pos hr]
    exact ⟨by decide, by decide⟩
  · rw [if_neg hr]
    exact ⟨toLower_toLower d, by simpa using hr⟩

theorem mem_replacePairOnce (s : List Char) (c : Char)
    (hc : c ∈ replacePairOnce s) : c ∈ s := by
  induction s using replacePairOnce.induct with
  | case1 => simpa [replacePairOnce] using hc
  | case2 d => simpa [replacePairOnce] using hc
  | case3 c1 c2 rest hp ih =>
    rw [replacePairOnce, if_pos hp] at hc
    rcases List.mem_cons.mp hc with h | h
    · simp [h, hp.1]
    · simp [ih h]
  | case4 c1 c2 rest hp ih =>
    rw [replacePairOnce, if_neg hp] at hc
    rcases List.mem_cons.mp hc with h | h
    · simp [h]
    · simp [List.mem_cons.mp (ih h)]

theorem mem_collapseFuel (fuel : Nat) (s : List Char) (c : Char)
    (hc : c ∈ collapseFuel fuel s) : c ∈ s := by
  induction fuel generalizing s with
  | zero => simpa [collapseFuel] using hc
  | succ fuel ih =>
    rw [collapseFuel] at hc
    split at hc
    · exact mem_replacePairOnce s c (ih _ hc)
    · exact hc

theorem replacePairOnce_ne_nil (s : List Char) (h : s ≠ []) :
    replacePairOnce s ≠ [] := by
  match s with
  | [] => exact absurd rfl h
  | [c] => simp [replacePairOnce]
  | c1 :: c2 :: rest =>
    rw [replacePairOnce]
    split <;> simp

theorem replacePairOnce_head? (s : List Char) :
    (replacePairOnce s).head? = s.head? := by
  match s with
  | [] => rfl
  | [c] => rfl
  | c1 :: c2 :: rest =>
    rw [replacePairOnce]
    split
    · next hp => simp [hp.1]
    · simp

theorem collapseFuel_head? (fuel : Nat) (s : List Char) :
    (collapseFuel fuel s).head? = s.head? := by
  induction fuel generalizing s with
  | zero => rfl
  | succ fuel ih =>
    rw [collapseFuel]
    split
    · rw [ih, replacePairOnce_head?]
    · rfl

theorem getLast?_cons_ne_nil (a : Char) (t : List Char) (h : t ≠ []) :
    (a :: t).getLast? = t.getLast? := by
  cases t with
  | nil => exact absurd rfl h
  | cons b t' => exact List.getLast?_cons_cons

theorem replacePairOnce_getLast? (s : List Char) :
    (replacePairOnce s).getLast? = s.getLast? ∨
    (replacePairOnce s).getLast? = some '_' := by
  induction s using replacePairOnce.induct with
  | case1 => exact Or.inl rfl
  | case2 c => exact Or.inl rfl
  | case3 c1 c2 rest hp ih =>
    obtain ⟨rfl, rfl⟩ := hp
    rw [replacePairOnce, if_pos ⟨rfl, rfl⟩]
    by_cases hr : rest = []
    · subst hr
      exact Or.inr rfl
    · have h1 : replacePairOnce rest ≠ [] := replacePairOnce_ne_nil rest hr
      rw [getLast?_cons_ne_nil _ _ h1,
        getLast?_cons_ne_nil '_' ('_' :: rest) (by simp),
        getLast?_cons_ne_nil '_' rest hr]
      exact ih
  | case4 c1 c2 rest hp ih =>
    rw [replacePairOnce, if_neg hp]
    rw [getLast?_cons_ne_nil _ _ (replacePairOnce_ne_nil _ (by simp)),
      getLast?_cons_ne_nil _ (c2 :: rest) (by simp)]
    exact ih

theorem collapseFuel_getLast? (fuel : Nat) (s : List Char) :
    (collapseFuel fuel s).getLast? = s.getLast? ∨
    (collapseFuel fuel s).getLast? = some '_' := by
  induction fuel generalizing s with
  | zero => exact Or.inl rfl
  | succ fuel ih =>
    rw [collapseFuel]
    split
    · rcases ih (replacePairOnce s) with h | h
      · rcases replacePairOnce_getLast? s with h' | h'
        · exact Or.inl (h.trans h')
        · exact Or.inr (h.trans h')
      · exact Or.inr h
    · exact Or.inl rfl

theorem hasDouble_collapseFuel (fuel : Nat) (s : List Char)
    (h : s.length ≤ fuel) : hasDouble (collapseFuel fuel s) = false := by
  induction fuel generalizing s with
  | zero =>
    have : s = [] := List.length_eq_zero.mp (by omega)
    subst this
    rfl
  | succ fuel ih =>
    rw [collapseFuel]
    by_cases hd : hasDouble s
    · rw [if_pos hd]
      exact ih _ (by have := replacePairOnce_length_lt s hd; omega)
    · rw [if_neg hd]
      exact Bool.eq_false_iff.mpr hd

theorem collapseFuel_of_clean (fuel : Nat) (s : List Char)
    (h : hasDouble s = false) : collapseFuel fuel s = s := by
  cases fuel with
  | zero => rfl
  | succ fuel => rw [collapseFuel, h]; rfl

theorem hasDouble_tail (c : Char) (t : List Char)
    (h : hasDouble (c :: t) = false) : hasDouble t = false := by
  cases t with
  | nil => rfl
  | cons c2 rest =>
    rw [hasDouble] at h
    exact (Bool.or_eq_false_iff.mp h).2

theorem not_hasDouble_no_split (s : List Char) (h : hasDouble s = false) :
    ∀ l1 l2 : List Char, s ≠ l1 ++ '_' :: '_' :: l2 := by
  intro l1
  induction l1 generalizing s with
  | nil =>
    intro l2 hs
    rw [List.nil_append] at hs
    subst hs
    rw [hasDouble] at h
    simp at h
  | cons a l1 ih =>
    intro l2 hs
    cases s with
    | nil => exact List.noConfusion hs
    | cons b t =>
      rw [List.cons_append] at hs
      obtain ⟨hb, ht⟩ := List.cons.inj hs
      exact ih t (hasDouble_tail b t h) l2 ht

theorem dropWhile_head?_not (p : Char → Bool) (l : List Char) (c : Char)
    (h : (l.dropWhile p).head? = some c) : p c = false := by
  induction l with
  | nil => simp [List.dropWhile] at h
  | cons a t ih =>
    rw [List.dropWhile_cons] at h
    by_cases hp : p a
    · rw [if_pos hp] at h
      exact ih h
    · rw [if_neg hp] at h
      simp only [List.head?_cons, Option.some.injEq] at h
      subst h
      exact Bool.eq_false_iff.mpr hp

theorem dropWhile_ne_nil_arg (p : Char → Bool) (l : List Char)
    (h : l.dropWhile p ≠ []) : l ≠ [] := by
  intro hl
  subst hl
  exact h rfl

theorem getLast?_dropWhile (p : Char → Bool) (l : List Char)
    (h : l.dropWhile p ≠ []) : (l.dropWhile p).getLast? = l.getLast? := by
  induction l with
  | nil => exact absurd rfl (dropWhile_ne_nil_arg p [] h)
  | cons a t ih =>
    rw [List.dropWhile_cons] at h ⊢
    by_cases hp : p a
    · rw [if_pos hp] at h ⊢
      rw [ih h, getLast?_cons_ne_nil a t (dropWhile_ne_nil_arg p t h)]
    · rw [if_neg hp]

theorem dropWhile_eq_self (p : Char → Bool) (l : List Char)
    (h : ∀ c, l.head? = some c → p c = false) : l.dropWhile p = l := by
  cases l with
  | nil => rfl
  | cons a t =>
    rw [List.dropWhile_cons, if_neg]
    rw [h a rfl]
    simp

theorem pyStripList_head_not_space (l : List Char) (c : Char)
    (h : (pyStripList l).head? = some c) : pyIsSpace c = false := by
  unfold pyStripList at h
  rw [List.head?_reverse] at h
  have hne : ((l.dropWhile pyIsSpace).reverse.dropWhile pyIsSpace) ≠ [] := by
    intro he
    rw [he] at h
    exact Option.noConfusion h
  rw [getLast?_dropWhile _ _ hne, List.getLast?_reverse] at h
  exact dropWhile_head?_not pyIsSpace _ c h

theorem pyStripList_getLast_not_space (l : List Char) (c : Char)
    (h : (pyStripList l).getLast? = some c) : pyIsSpace c = false := by
  unfold pyStripList at h
  rw [List.getLast?_reverse] at h
  exact dropWhile_head?_not pyIsSpace _ c h

theorem pyStripList_eq_self (l : List Char)
    (hh : ∀ c, l.head? = some c → pyIsSpace c = false)
    (hl : ∀ c, l.getLast? = some c → pyIsSpace c = false) :
    pyStripList l = l := by
  unfold pyStripList
  rw [dropWhile_eq_self pyIsSpace l hh]
  rw [dropWhile_eq_self pyIsSpace l.reverse
    (fun c hc => hl c (by rwa [List.head?_reverse] at hc))]
  exact List.reverse_reverse l

/-- Characters of the normalized key: each is fixed by `toLower` and is
not a replacement target. -/
theorem normalize_key_mem_clean (x : String) (c : Char)
    (hc : c ∈ (normalize_key x).toList) :
    c.toLower = c ∧ isReplacedChar c = false := by
  unfold normalize_key collapseUnderscores at hc
  exact replaceSpecials_mem_clean _ c (mem_collapseFuel _ _ c hc)

/-- The normalized key has no whitespace at either end. -/
theorem normalize_key_ends_not_space (x : String) :
    (∀ c, (normalize_key x).toList.head? = some c → pyIsSpace c = false) ∧
    (∀ c, (normalize_key x).toList.getLast? = some c → pyIsSpace c = false) := by
  unfold normalize_key collapseUnderscores
  constructor
  · intro c hc
    rw [toList_asString, collapseFuel_head?] at hc
    unfold replaceSpecials at hc
    rw [List.head?_map, List.head?_map] at hc
    cases hd : (pyStripList x.toList).head? with
    | none => rw [hd] at hc; exact Option.noConfusion hc
    | some d =>
      rw [hd] at hc
      simp only [Option.map_some', Option.some.injEq] at hc
      subst hc
      exact pyIsSpace_replaceChar _
        (pyIsSpace_toLower d (pyStripList_head_not_space x.toList d hd))
  · intro c hc
    rw [toList_asString] at hc
    rcases collapseFuel_getLast?
        (replaceSpecials (List.map Char.toLower (pyStripList x.toList))).length
        (replaceSpecials (List.map Char.toLower (pyStripList x.toList))) with h | h
    · rw [h] at hc
      unfold replaceSpecials at hc
      rw [List.getLast?_map, List.getLast?_map] at hc
      cases hd : (pyStripList x.toList).getLast? with
      | none => rw [hd] at hc; exact Option.noConfusion hc
      | some d =>
        rw [hd] at hc
        simp only [Option.map_some', Option.some.injEq] at hc
        subst hc
        exact pyIsSpace_replaceChar _
          (pyIsSpace_toLower d (pyStripList_getLast_not_space x.toList d hd))
    · rw [h] at hc
      obtain rfl : c = '_' := (Option.some.injEq _ _).mp hc.symm
      decide

/-- The normalized key never contains a double underscore. -/
theorem normalize_key_no_double (x : String) :
    hasDouble (normalize_key x).toList = false := by
  unfold normalize_key collapseUnderscores
  exact hasDouble_collapseFuel _ _ le_rfl

/-- Claim C7.  `normalize_key` (strip, lowercase, replace space `/` `-`
`(` `)` by `_`, collapse `_` runs) is idempotent, and its output never
contains two consecutive underscores nor leading or trailing whitespace. -/
theorem normalize_key_spec (x : String) :
    normalize_key (normalize_key x) = normalize_key x ∧
    (∀ l1 l2 : List Char, (normalize_key x).toList ≠ l1 ++ '_' :: '_' :: l2) ∧
    (∀ c, (normalize_key x).toList.head? = some c → pyIsSpace c = false) ∧
    (∀ c, (normalize_key x).toList.getLast? = some c → pyIsSpace c = false) := by
  refine ⟨?_, not_hasDouble_no_split _ (normalize_key_no_double x),
    (normalize_key_ends_not_space x).1, (normalize_key_ends_not_space x).2⟩
  have hstrip : pyStripList (normalize_key x).toList = (normalize_key x).toList :=
    pyStripList_eq_self _ (normalize_key_ends_not_space x).1
      (normalize_key_ends_not_space x).2
  have hlower : (normalize_key x).toList.map Char.toLower = (normalize_key x).toList := by
    rw [List.map_congr_left (fun c hc => (normalize_key_mem_clean x c hc).1)]
    exact List.map_id _
  have hrepl : replaceSpecials (normalize_key x).toList = (normalize_key x).toList := by
    unfold replaceSpecials
    rw [List.map_congr_left
      (fun c hc => by rw [(normalize_key_mem_clean x c hc).2])]
    exact List.map_id _
  have hfinal : collapseUnderscores (normalize_key x).toList =
      (normalize_key x).toList := by
    unfold collapseUnderscores
    exact collapseFuel_of_clean _ _ (normalize_key_no_double x)
  show (collapseUnderscores (replaceSpecials
    ((pyStripList (normalize_key x).toList).map Char.toLower))).asString =
    normalize_key x
  rw [hstrip, hlower, hrepl, hfinal]
  exact (String.ext_iff).mpr rfl

/-- Claim C7, witness: idempotence and the no-double-underscore property
at a concrete input. -/
theorem normalize_key_spec_witness :
    normalize_key (normalize_key " A  b/C-(d) ") = normalize_key " A  b/C-(d) " ∧
    (normalize_key " A  b/C-(d) ").toList ≠ ['a'] ++ '_' :: '_' :: ['b'] :=
  ⟨(normalize_key_spec " A  b/C-(d) ").1,
   (normalize_key_spec " A  b/C-(d) ").2.1 ['a'] ['b']⟩

/-! ### Claim C8: password hashing in the token requests -/

theorem length_compressBlock (hsh block : List Nat) :
    (compressBlock hsh block).length = 8 := by
  simp [compressBlock]

theorem length_foldl_compressBlock (blocks : List (List Nat)) (hsh : List Nat)
    (h : hsh.length = 8) :
    (blocks.foldl compressBlock hsh).length = 8 := by
  induction blocks generalizing hsh with
  | nil => exact h
  | cons b bs ih => exact ih _ (length_compressBlock hsh b)

theorem length_flatMap_wordBytes (l : List Nat) :
    (l.flatMap wordBytes).length = 4 * l.length := by
  induction l with
  | nil => rfl
  | cons x t ih =>
    rw [List.flatMap_cons, List.length_append, ih, List.length_cons]
    show 4 + 4 * t.length = 4 * (t.length + 1)
    omega

theorem length_sha256 (msg : List Nat) : (sha256 msg).length = 32 := by
  unfold sha256
  rw [length_flatMap_wordBytes,
    length_foldl_compressBlock _ shaH0 (by rfl)]

theorem length_bytesToHex (bs : List Nat) :
    (bytesToHex bs).length = 2 * bs.length := by
  induction bs with
  | nil => rfl
  | cons b t ih =>
    unfold bytesToHex at ih ⊢
    rw [List.flatMap_cons, List.length_append, ih]
    simp
    omega

/-- The hex digest of any string has exactly 64 characters. -/
theorem sha256Hexdigest_length (s : String) :
    (sha256Hexdigest s).length = 64 := by
  show (bytesToHex (sha256 (utf8Encode s))).length = 64
  rw [length_bytesToHex, length_sha256]

theorem getD_mem_or (l : List Char) (i : Nat) (d : Char) :
    l.getD i d ∈ l ∨ l.getD i d = d := by
  induction l generalizing i with
  | nil => exact Or.inr rfl
  | cons a t ih =>
    cases i with
    | zero => exact Or.inl (by simp [List.getD])
    | succ i =>
      rcases ih i with h | h
      · exact Or.inl (by simp [List.getD] at h ⊢; simp [h])
      · exact Or.inr (by simpa [List.getD] using h)

theorem hexChar_mem (n : Nat) : hexChar n ∈ "0123456789abcdef".toList := by
  rcases getD_mem_or "0123456789abcdef".toList n '0' with h | h
  · exact h
  · rw [hexChar, h]
    decide

/-- Every character of a hex rendering is a lowercase hex digit. -/
theorem mem_bytesToHex (bs : List Nat) (c : Char) (hc : c ∈ bytesToHex bs) :
    c ∈ "0123456789abcdef".toList := by
  unfold bytesToHex at hc
  rw [List.mem_flatMap] at hc
  obtain ⟨b, _, hcb⟩ := hc
  rcases List.mem_cons.mp hcb with h | h
  · rw [h]; exact hexChar_mem _
  · rcases List.mem_cons.mp h with h' | h'
    · rw [h']; exact hexChar_mem _
    · simp at h'

/-- Claim C8, counterexample.  The claim says the raw password string
never appears anywhere in the transmitted request; but the `email` field
is sent in the clear, so a configuration whose email equals its password
transmits the raw password verbatim (as the email value). -/
theorem raw_password_in_request_when_email_equals_password :
    (⟨"app-id", "app-secret", "hunter2", "hunter2", "sn", "eu1"⟩ :
        DeyeConfig).password ∈
      transmittedValues (buildTokenRequest
        ⟨"app-id", "app-secret", "hunter2", "hunter2", "sn", "eu1"⟩) := by
  simp [transmittedValues, buildTokenRequest]

/-- Claim C8, amended.  Both token-acquisition paths (polling and
setup-time validation) build the identical request, whose JSON `password`
field is the lowercase hex-encoded SHA-256 digest of the configured
password — 64 lowercase-hex characters, hence never equal to a password
whose length is not 64 — and the raw password appears nowhere in the
transmitted request unless it coincides with one of the plaintext fields
(`appId`, `appSecret`, `email`) or a password of length exactly 64 equals
its own digest. -/
theorem token_request_password_is_sha256_hexdigest (config : DeyeConfig) :
    buildValidateRequest config = buildTokenRequest config ∧
    (buildTokenRequest config).body.lookup "password" =
      some (sha256Hexdigest config.password) ∧
    (sha256Hexdigest config.password).length = 64 ∧
    (∀ c, c ∈ (sha256Hexdigest config.password).toList →
      c ∈ "0123456789abcdef".toList) ∧
    (config.password.length ≠ 64 →
      sha256Hexdigest config.password ≠ config.password) ∧
    (config.password.length ≠ 64 →
      config.password ≠ config.appId →
      config.password ≠ config.appSecret →
      config.password ≠ config.email →
      config.password ∉ transmittedValues (buildTokenRequest config)) := by
  have hlen := sha256Hexdigest_length config.password
  have hne : config.password.length ≠ 64 →
      sha256Hexdigest config.password ≠ config.password := by
    intro h64 heq
    rw [heq] at hlen
    exact h64 hlen
  refine ⟨rfl, rfl, hlen, fun c hc => mem_bytesToHex _ c hc, hne, ?_⟩
  intro h64 hid hsec hmail hmem
  simp only [transmittedValues, buildTokenRequest, List.map_cons, List.map_nil,
    List.mem_append, List.mem_cons, List.not_mem_nil, or_false] at hmem
  rcases hmem with h | h | h | h
  · exact hid h
  · exact hsec h
  · exact hmail h
  · exact hne h64 h.symm

/-- Claim C8, witness: the amended theorem at a concrete configuration
whose password differs from the plaintext fields and has length 7. -/
theorem token_request_password_is_sha256_hexdigest_witness :
    (buildTokenRequest
        ⟨"id1", "secret1", "user AT example.com", "hunter2", "sn1", "eu1"⟩).body.lookup
      "password" = some (sha256Hexdigest "hunter2") ∧
    (sha256Hexdigest "hunter2").length = 64 ∧
    sha256Hexdigest "hunter2" ≠ "hunter2" ∧
    "hunter2" ∉ transmittedValues (buildTokenRequest
      ⟨"id1", "secret1", "user AT example.com", "hunter2", "sn1", "eu1"⟩) :=
  ⟨(token_request_password_is_sha256_hexdigest _).2.1,
   (token_request_password_is_sha256_hexdigest
      ⟨"id1", "secret1", "user AT example.com", "hunter2", "sn1", "eu1"⟩).2.2.1,
   (token_request_password_is_sha256_hexdigest
      ⟨"id1", "secret1", "user AT example.com", "hunter2", "sn1", "eu1"⟩).2.2.2.2.1
      (by decide),
   (token_request_password_is_sha256_hexdigest
      ⟨"id1", "secret1", "user AT example.com", "hunter2", "sn1", "eu1"⟩).2.2.2.2.2
      (by decide) (by decide) (by decide) (by decide)⟩

end DeyeCloud
